import Mathlib

/-!
Verification of the DRTP reliable-transport program (src/application.py).

The embedding models byte strings as `List Nat` (each entry one byte), the
packet codec as executable functions on such lists, and the two protocol
engines as explicit state-passing step functions.  Fallible operations
(struct.unpack on a short buffer, set.remove on a missing element) are
modelled with `Except String`, the error string naming the Python exception.
Wall-clock timing is abstracted away: a "round" of the sender receives the
finite list of datagrams that arrive before the timeout elapses, and the
receiver loop consumes a list of `Option` datagrams where `none` stands for
a socket timeout tick.
-/

namespace DRTP

/-- Header size in bytes (application.py line 9). -/
def HEADER_SIZE : Nat := 6

/-- Max data size in bytes (application.py line 10). -/
def MAX_DATA_SIZE : Nat := 994

/-- Total packet size (application.py line 11). -/
def PACKET_SIZE : Nat := HEADER_SIZE + MAX_DATA_SIZE

/-- SYN flag value `1 <<< 0` (application.py line 15). -/
def SYN_FLAG : Nat := 1

/-- ACK flag value `1 <<< 1` (application.py line 16). -/
def ACK_FLAG : Nat := 2

/-- FIN flag value `1 <<< 2` (application.py line 17). -/
def FIN_FLAG : Nat := 4

/-- Big-endian encoding of one unsigned 16-bit field, as produced by
`struct.pack` with format `!H`.  The caller guarantees the value fits in
16 bits (`struct.pack` would raise otherwise; every value the program packs
is a sequence number, ack number or flag word far below 65536). -/
def pack16 (n : Nat) : List Nat := [n / 256 % 256, n % 256]

/-- Big-endian decoding of one unsigned 16-bit field (`struct.unpack`, `!H`). -/
def unpack16 (hi lo : Nat) : Nat := hi * 256 + lo

/-- `create_packet(seq, ack_num, flags, data)` (application.py lines 42-44):
packs the three 16-bit fields big-endian and appends the data bytes. -/
def create_packet (seq ack_num flags : Nat) (data : List Nat) : List Nat :=
  pack16 seq ++ pack16 ack_num ++ pack16 flags ++ data

/-- `parse_packet(packet)` (application.py lines 52-56): splits off the first
6 bytes as the header, unpacks the three fields, and returns the remainder as
data.  On a buffer shorter than 6 bytes `struct.unpack` raises
`struct.error`, which the embedding returns as an `Except.error`. -/
def parse_packet (packet : List Nat) :
    Except String (Nat × Nat × Nat × List Nat) :=
  match packet with
  | b0 :: b1 :: b2 :: b3 :: b4 :: b5 :: data =>
    .ok (unpack16 b0 b1, unpack16 b2 b3, unpack16 b4 b5, data)
  | _ => .error "struct.error"

/-- `is_flag_set(flags, flag)` (application.py lines 64-65): bitwise AND test. -/
def is_flag_set (flags flag : Nat) : Bool := (flags &&& flag) != 0

/-- Python slice `l[i:j]` on a byte string (0-based, clamped). -/
def slice (l : List Nat) (i j : Nat) : List Nat := (l.drop i).take (j - i)

/-- `total_packets = (len(file_data) + MAX_DATA_SIZE - 1) // MAX_DATA_SIZE`
(application.py line 232). -/
def total_packets (file_data : List Nat) : Nat :=
  (file_data.length + MAX_DATA_SIZE - 1) / MAX_DATA_SIZE

/-- A packet as handed to `create_packet` by the engines; the engine-level
model keeps the four fields structured and lets the codec theorems relate
this form to the wire bytes. -/
structure DPacket where
  seq : Nat
  ack_num : Nat
  flags : Nat
  data : List Nat
deriving DecidableEq, Repr

/-- The server state of `run_server` (application.py lines 146-147 and the
`discard_seq` parameter): received bytes, next expected sequence number, and
the one-shot discard value, where `none` models `float(inf)` (disabled). -/
structure ServerState where
  file_data : List Nat
  expected_seq : Nat
  discard_seq : Option Nat
deriving DecidableEq, Repr

/-- One iteration of the `run_server` receive loop on a datagram that
arrived (application.py lines 153-191): parse, then the SYN / ACK / FIN /
discard / in-order / out-of-order branches in source order.  The result is
the new state, the list of datagrams sent back, and `true` when the loop
continues (`false` on the FIN break).  A parse failure propagates as an
error: the source wraps the body in `try ... except socket.timeout` only,
so `struct.error` escapes the loop. -/
def run_server_step (st : ServerState) (packet : List Nat) :
    Except String (ServerState × List (List Nat) × Bool) :=
  match parse_packet packet with
  | .error e => .error e
  | .ok (seq, _ack_num, flags, data) =>
    if is_flag_set flags SYN_FLAG then
      .ok (st, [create_packet 0 0 (SYN_FLAG ||| ACK_FLAG) []], true)
    else if is_flag_set flags ACK_FLAG then
      .ok (st, [], true)
    else if is_flag_set flags FIN_FLAG then
      .ok (st, [create_packet 0 0 (FIN_FLAG ||| ACK_FLAG) []], false)
    else if st.discard_seq = some seq then
      .ok ({ st with discard_seq := none }, [], true)
    else if seq = st.expected_seq then
      .ok ({ st with
              file_data := st.file_data ++ data,
              expected_seq := st.expected_seq + 1 },
           [create_packet 0 seq ACK_FLAG []], true)
    else
      .ok (st, [], true)

/-- The `run_server` receive loop (application.py lines 151-194) over a
finite list of receive outcomes: `none` is a `socket.timeout` tick
(`continue`), `some pkt` a delivered datagram.  Returns the final state, all
datagrams sent, and `true` when the loop ended via the FIN break; an
unhandled `struct.error` aborts the loop as an error. -/
def run_server_loop (st : ServerState) :
    List (Option (List Nat)) → Except String (ServerState × List (List Nat) × Bool)
  | [] => .ok (st, [], false)
  | none :: rest => run_server_loop st rest
  | some pkt :: rest =>
    match run_server_step st pkt with
    | .error e => .error e
    | .ok (st', out, cont) =>
      if cont then
        match run_server_loop st' rest with
        | .error e => .error e
        | .ok (st'', out', fin) => .ok (st'', out ++ out', fin)
      else .ok (st', out, true)

/-- Equality of `Except` values is decidable when it is on both sides; the
instance lets concrete engine runs be settled by `decide`. -/
instance {ε α : Type} [DecidableEq ε] [DecidableEq α] : DecidableEq (Except ε α) :=
  fun x y =>
    match x, y with
    | .ok a, .ok b =>
      if h : a = b then .isTrue (by rw [h]) else
        .isFalse (by intro hc; cases hc; exact h rfl)
    | .error a, .error b =>
      if h : a = b then .isTrue (by rw [h]) else
        .isFalse (by intro hc; cases hc; exact h rfl)
    | .ok _, .error _ => .isFalse (by intro hc; cases hc)
    | .error _, .ok _ => .isFalse (by intro hc; cases hc)

/-- The sender window state closed over by the nested routines of
`run_client` (application.py lines 233-235): `base`, `next_seq`, and the
`window` set of sequence numbers. -/
structure ClientState where
  base : Nat
  next_seq : Nat
  window : Finset Nat
deriving DecidableEq

/-- The body of the `send_window` while loop (application.py lines 256-268),
with an explicit iteration budget `fuel`.  Each iteration checks
`next_seq <= base + window_size and next_seq <= total_packets`; when
`next_seq - 1 < 1` the source first adds `next_seq` to the window and
increments it (the "skip seq = 0" branch), and then — with the incremented
value — slices `file_data[(next_seq-1)*MAX_DATA_SIZE : next_seq*MAX_DATA_SIZE]`,
sends a packet with sequence field `next_seq - 1`, adds `next_seq` to the
window and increments again.  Returns the final `next_seq`, the final
window, and the packets sent in order.  `send_window` supplies fuel that
exceeds the number of iterations the guard admits, so the `0` case is never
reached from it (`send_window_go_fuel_irrel`). -/
def send_window_go (file_data : List Nat) (total_packets window_size base : Nat) :
    Nat → Nat → Finset Nat → Nat × Finset Nat × List DPacket
  | 0, next_seq, window => (next_seq, window, [])
  | fuel + 1, next_seq, window =>
    if next_seq ≤ base + window_size ∧ next_seq ≤ total_packets then
      if next_seq - 1 < 1 then
        let data := slice file_data (next_seq * MAX_DATA_SIZE)
          ((next_seq + 1) * MAX_DATA_SIZE)
        let rest := send_window_go file_data total_packets window_size base fuel
          (next_seq + 2) (insert (next_seq + 1) (insert next_seq window))
        (rest.1, rest.2.1, ⟨next_seq, 0, 0, data⟩ :: rest.2.2)
      else
        let data := slice file_data ((next_seq - 1) * MAX_DATA_SIZE)
          (next_seq * MAX_DATA_SIZE)
        let rest := send_window_go file_data total_packets window_size base fuel
          (next_seq + 1) (insert next_seq window)
        (rest.1, rest.2.1, ⟨next_seq - 1, 0, 0, data⟩ :: rest.2.2)
    else (next_seq, window, [])

/-- The `send_window` routine (application.py lines 256-268).  The while
loop strictly increases `next_seq` each iteration and runs only while
`next_seq <= base + window_size`, so `base + window_size + 2 - next_seq`
iterations always suffice. -/
def send_window (file_data : List Nat) (total_packets window_size base next_seq : Nat)
    (window : Finset Nat) : Nat × Finset Nat × List DPacket :=
  send_window_go file_data total_packets window_size base
    (base + window_size + 2 - next_seq) next_seq window

/-- The `retransmit_packets` routine (application.py lines 243-248): for
each `seq` in `range(base, next_seq - 1)` it rebuilds the packet from
`file_data[(seq-1)*MAX_DATA_SIZE : seq*MAX_DATA_SIZE]` with no ack number
and no flags and sends it. -/
def retransmit_packets (file_data : List Nat) (base next_seq : Nat) : List DPacket :=
  (List.range' base (next_seq - 1 - base)).map fun seq =>
    ⟨seq, 0, 0, slice file_data ((seq - 1) * MAX_DATA_SIZE) (seq * MAX_DATA_SIZE)⟩

/-- The window-sliding while loop of `run_client` (application.py lines
303-305): `while base <= ack_num: window.remove(base); base += 1`.
`set.remove` on a missing element raises `KeyError`, modelled as an error.
The fuel `ack_num + 1 - base` supplied by `slide_window` is exact: when it
reaches `0` the guard `base <= ack_num` has just become false, and the `0`
case returns the same value the false guard returns. -/
def slide_go : Nat → Nat → Nat → Finset Nat → Except String (Nat × Finset Nat)
  | 0, base, _, window => .ok (base, window)
  | fuel + 1, base, ack_num, window =>
    if base ≤ ack_num then
      if base ∈ window then slide_go fuel (base + 1) ack_num (window.erase base)
      else .error "KeyError"
    else .ok (base, window)

/-- The window slide on a received ACK (application.py lines 303-305). -/
def slide_window (base ack_num : Nat) (window : Finset Nat) :
    Except String (Nat × Finset Nat) :=
  slide_go (ack_num + 1 - base) base ack_num window

/-- Handling of one datagram received inside the data-transfer loop
(application.py lines 298-306): if the ACK flag is set and
`ack_num >= base`, slide the window and immediately call `send_window`;
any other datagram is ignored.  Returns the updated state and the packets
sent by the immediate `send_window` call. -/
def on_ack (file_data : List Nat) (total window_size : Nat) (st : ClientState)
    (p : DPacket) : Except String (ClientState × List DPacket) :=
  if is_flag_set p.flags ACK_FLAG ∧ st.base ≤ p.ack_num then
    match slide_window st.base p.ack_num st.window with
    | .error e => .error e
    | .ok (base', window') =>
      let r := send_window file_data total window_size base' st.next_seq window'
      .ok (⟨base', r.1, r.2.1⟩, r.2.2)
  else .ok (st, [])

/-- The inner ACK-listening loop of one data-transfer round (application.py
lines 296-309): the datagrams that arrive before the round times out are
processed in order by `on_ack`. -/
def process_acks (file_data : List Nat) (total window_size : Nat) :
    ClientState → List DPacket → Except String (ClientState × List DPacket)
  | st, [] => .ok (st, [])
  | st, p :: rest =>
    match on_ack file_data total window_size st p with
    | .error e => .error e
    | .ok (st', sent) =>
      match process_acks file_data total window_size st' rest with
      | .error e => .error e
      | .ok (st'', sent') => .ok (st'', sent ++ sent')

/-- The data-transfer while loop of `run_client` (application.py lines
292-313): while `base < total_packets`, call `send_window`, process the
ACKs that arrive during the round, and then call `retransmit_packets`
(the source calls it unconditionally after the inner loop; only the RTO
log line is conditional).  `schedule` lists, per round, the datagrams
received before that round times out; `fuel` bounds the number of rounds
(the source loop itself has no bound), and exhausting it is reported as an
error so that no run is silently truncated.  Returns the final state and
every data packet sent during the phase, in order. -/
def transfer_loop (file_data : List Nat) (total window_size : Nat) :
    Nat → ClientState → List (List DPacket) →
    Except String (ClientState × List DPacket)
  | fuel, st, schedule =>
    if st.base < total then
      match fuel with
      | 0 => .error "out of rounds"
      | fuel + 1 =>
        let r := send_window file_data total window_size st.base st.next_seq st.window
        match process_acks file_data total window_size ⟨st.base, r.1, r.2.1⟩
            (schedule.headD []) with
        | .error e => .error e
        | .ok (st2, sent2) =>
          let rts := retransmit_packets file_data st2.base st2.next_seq
          match transfer_loop file_data total window_size fuel st2 schedule.tail with
          | .error e => .error e
          | .ok (st3, sent3) => .ok (st3, r.2.2 ++ sent2 ++ rts ++ sent3)
    else .ok (st, [])

/-- The sender window states reachable during the data-transfer phase:
from the initial `base = 1`, `next_seq = 1`, empty window (application.py
lines 233-235), by `send_window` rounds and by successfully processed
received datagrams. -/
inductive Reachable (file_data : List Nat) (total window_size : Nat) :
    ClientState → Prop where
  | init : Reachable file_data total window_size ⟨1, 1, ∅⟩
  | send {st : ClientState} :
      Reachable file_data total window_size st →
      Reachable file_data total window_size
        ⟨st.base,
         (send_window file_data total window_size st.base st.next_seq st.window).1,
         (send_window file_data total window_size st.base st.next_seq st.window).2.1⟩
  | recv {st st' : ClientState} {p : DPacket} {sent : List DPacket} :
      Reachable file_data total window_size st →
      on_ack file_data total window_size st p = .ok (st', sent) →
      Reachable file_data total window_size st'

/-- A concrete 995-byte payload: 994 bytes of value 7 (chunk 1) followed by
one byte of value 9 (chunk 2).  Its `total_packets` is 2. -/
def file995 : List Nat := List.replicate 994 7 ++ [9]

set_option maxRecDepth 100000

/-- Unpacking the two bytes packed from a 16-bit value recovers it. -/
theorem unpack16_pack16 (n : Nat) (h : n < 65536) :
    unpack16 (n / 256 % 256) (n % 256) = n := by
  unfold unpack16
  omega

/-- Decoding an encoded packet recovers the three header fields and the
payload whenever the fields fit in 16 bits. -/
theorem parse_create (s a f : Nat) (data : List Nat) (hs : s < 65536)
    (ha : a < 65536) (hf : f < 65536) :
    parse_packet (create_packet s a f data) = .ok (s, a, f, data) := by
  simp only [create_packet, pack16, List.cons_append, List.nil_append, parse_packet,
    Except.ok.injEq, Prod.mk.injEq]
  exact ⟨unpack16_pack16 s hs, unpack16_pack16 a ha, unpack16_pack16 f hf, trivial⟩

/-- Bitwise-AND monotonicity used for the combined flag masks: if `y` is a
sub-mask of `z` and `x` has no bit of `z`, then `x` has no bit of `y`. -/
theorem land_sub_zero {x y z : Nat} (hyz : z &&& y = y) (h : x &&& z = 0) :
    x &&& y = 0 := by
  rw [← hyz, ← Nat.land_assoc, h]
  simp

/-- The sliding loop `while base <= ack_num` over the window `Ico base ns`
removes `base .. ack_num` and ends with `base = ack_num + 1`, provided
`ack_num < ns` so that every removed element is present. -/
theorem slide_go_ok (a ns : Nat) :
    ∀ fuel b, b ≤ a + 1 → a + 1 - b ≤ fuel → a < ns →
      slide_go fuel b a (Finset.Ico b ns) = .ok (a + 1, Finset.Ico (a + 1) ns) := by
  intro fuel
  induction fuel with
  | zero =>
    intro b hb hf _
    have hba : b = a + 1 := by omega
    subst hba
    rfl
  | succ fuel ih =>
    intro b hb hf ha
    by_cases hba : b ≤ a
    · have hmem : b ∈ Finset.Ico b ns := Finset.mem_Ico.mpr ⟨le_refl b, by omega⟩
      have herase : (Finset.Ico b ns).erase b = Finset.Ico (b + 1) ns := by
        ext x
        simp only [Finset.mem_erase, Finset.mem_Ico]
        omega
      simp only [slide_go, if_pos hba, if_pos hmem, herase]
      exact ih (b + 1) (by omega) (by omega) ha
    · have hba' : b = a + 1 := by omega
      subst hba'
      simp only [slide_go, if_neg (by omega : ¬ (a + 1 ≤ a))]

/-- When `ack_num` reaches at least `ns`, the sliding loop eventually calls
`window.remove` on an element outside `Ico base ns` and raises `KeyError`. -/
theorem slide_go_err (a ns : Nat) :
    ∀ fuel b, b ≤ ns → ns ≤ a → ns + 1 - b ≤ fuel →
      slide_go fuel b a (Finset.Ico b ns) = .error "KeyError" := by
  intro fuel
  induction fuel with
  | zero =>
    intro b hb ha hf
    omega
  | succ fuel ih =>
    intro b hb ha hf
    by_cases hbn : b < ns
    · have hmem : b ∈ Finset.Ico b ns := Finset.mem_Ico.mpr ⟨le_refl b, hbn⟩
      have herase : (Finset.Ico b ns).erase b = Finset.Ico (b + 1) ns := by
        ext x
        simp only [Finset.mem_erase, Finset.mem_Ico]
        omega
      simp only [slide_go, if_pos (by omega : b ≤ a), if_pos hmem, herase]
      exact ih (b + 1) (by omega) ha (by omega)
    · have hbn' : b = ns := by omega
      have hmem : b ∉ Finset.Ico b ns := by simp [hbn']
      simp only [slide_go, if_pos (by omega : b ≤ a), if_neg hmem]

/-- `slide_window` on a window of shape `Ico base ns`, success case. -/
theorem slide_window_ok (b a ns : Nat) (hba : b ≤ a) (ha : a < ns) :
    slide_window b a (Finset.Ico b ns) = .ok (a + 1, Finset.Ico (a + 1) ns) :=
  slide_go_ok a ns (a + 1 - b) b (by omega) (by omega) ha

/-- `slide_window` on a window of shape `Ico base ns`, `KeyError` case. -/
theorem slide_window_err (b a ns : Nat) (hb : b ≤ ns) (ha : ns ≤ a) :
    slide_window b a (Finset.Ico b ns) = .error "KeyError" :=
  slide_go_err a ns (a + 1 - b) b hb ha (by omega)

/-- Effect of the `send_window` loop body on a window of shape `Ico base ns`
when the fuel exceeds the iterations the guard admits: `next_seq` does not
decrease, the window keeps the shape `Ico base next_seq`, and with a positive
window size the loop never pushes `next_seq` beyond `base + window_size + 1`. -/
theorem send_window_go_spec (fd : List Nat) (total w b : Nat) :
    ∀ fuel ns, 1 ≤ b → b ≤ ns → b + w + 1 - ns < fuel →
      ns ≤ (send_window_go fd total w b fuel ns (Finset.Ico b ns)).1 ∧
      (send_window_go fd total w b fuel ns (Finset.Ico b ns)).2.1 =
        Finset.Ico b (send_window_go fd total w b fuel ns (Finset.Ico b ns)).1 ∧
      (1 ≤ w → ns ≤ b + w + 1 →
        (send_window_go fd total w b fuel ns (Finset.Ico b ns)).1 ≤ b + w + 1) := by
  intro fuel
  induction fuel with
  | zero =>
    intro ns h1 h2 h3
    omega
  | succ fuel ih =>
    intro ns h1 h2 h3
    by_cases hg : ns ≤ b + w ∧ ns ≤ total
    · by_cases hskip : ns - 1 < 1
      · have hb1 : b = 1 := by omega
        have hns1 : ns = 1 := by omega
        subst hb1
        subst hns1
        have hwin : insert 2 (insert 1 (Finset.Ico 1 1)) = Finset.Ico 1 3 := by decide
        simp only [send_window_go, if_pos hg, if_pos hskip,
          show (1 : Nat) + 2 = 3 from rfl, hwin]
        obtain ⟨ha, hb, hc⟩ := ih 3 (by omega) (by omega) (by omega)
        exact ⟨by omega, hb, fun hw _ => hc hw (by omega)⟩
      · have hns2 : 2 ≤ ns := by omega
        have hwin : insert ns (Finset.Ico b ns) = Finset.Ico b (ns + 1) := by
          ext x
          simp only [Finset.mem_insert, Finset.mem_Ico]
          omega
        simp only [send_window_go, if_pos hg, if_neg hskip, hwin]
        obtain ⟨ha, hb, hc⟩ := ih (ns + 1) h1 (by omega) (by omega)
        exact ⟨by omega, hb, fun hw _ => hc hw (by omega)⟩
    · simp only [send_window_go, if_neg hg]
      exact ⟨le_refl ns, trivial, fun _ h4 => h4⟩

/-- The `send_window` wrapper always supplies enough fuel; specification of
`send_window` on windows of shape `Ico base ns`. -/
theorem send_window_spec (fd : List Nat) (total w b ns : Nat) (h1 : 1 ≤ b)
    (h2 : b ≤ ns) :
    ns ≤ (send_window fd total w b ns (Finset.Ico b ns)).1 ∧
    (send_window fd total w b ns (Finset.Ico b ns)).2.1 =
      Finset.Ico b (send_window fd total w b ns (Finset.Ico b ns)).1 ∧
    (1 ≤ w → ns ≤ b + w + 1 →
      (send_window fd total w b ns (Finset.Ico b ns)).1 ≤ b + w + 1) := by
  unfold send_window
  by_cases hc : ns ≤ b + w + 1
  · exact send_window_go_spec fd total w b (b + w + 2 - ns) ns h1 h2 (by omega)
  · have hf : b + w + 2 - ns = 0 := by omega
    rw [hf]
    exact ⟨le_refl ns, rfl, fun _ h4 => by omega⟩

/-- Every window state reachable in the data-transfer phase has `base ≥ 1`,
`base ≤ next_seq`, window equal to `Ico base next_seq`, and (for positive
window size) `next_seq ≤ base + window_size + 1`. -/
theorem reachable_inv (fd : List Nat) (total w : Nat) (st : ClientState)
    (h : Reachable fd total w st) :
    1 ≤ st.base ∧ st.base ≤ st.next_seq ∧
      st.window = Finset.Ico st.base st.next_seq ∧
      (1 ≤ w → st.next_seq ≤ st.base + w + 1) := by
  induction h with
  | init =>
    refine ⟨le_refl 1, le_refl 1, by simp, fun _ => ?_⟩
    show (1 : Nat) ≤ 1 + w + 1
    omega
  | send hst ih =>
    obtain ⟨ih1, ih2, ih3, ih4⟩ := ih
    rename_i st'
    dsimp only
    rw [ih3]
    obtain ⟨hsa, hsb, hsc⟩ := send_window_spec fd total w st'.base st'.next_seq ih1 ih2
    exact ⟨ih1, by omega, hsb, fun hw => hsc hw (ih4 hw)⟩
  | recv hst hack ih =>
    obtain ⟨ih1, ih2, ih3, ih4⟩ := ih
    rename_i st0 st1 p sent
    unfold on_ack at hack
    split at hack
    · rename_i hguard
      rw [ih3] at hack
      by_cases hlt : p.ack_num < st0.next_seq
      · rw [slide_window_ok st0.base p.ack_num st0.next_seq hguard.2 hlt] at hack
        simp only [Except.ok.injEq, Prod.mk.injEq] at hack
        obtain ⟨hst1, -⟩ := hack
        subst hst1
        obtain ⟨hsa, hsb, hsc⟩ := send_window_spec fd total w (p.ack_num + 1)
          st0.next_seq (by omega) (by omega)
        dsimp only
        exact ⟨by omega, by omega, hsb, fun hw => hsc hw (by
          have := ih4 hw
          omega)⟩
      · rw [slide_window_err st0.base p.ack_num st0.next_seq ih2 (by omega)] at hack
        simp at hack
    · simp only [Except.ok.injEq, Prod.mk.injEq] at hack
      obtain ⟨hst1, -⟩ := hack
      subst hst1
      exact ⟨ih1, ih2, ih3, ih4⟩

/-- The data-transfer loop returns normally only once `base >= total`, and
from a state already satisfying `base >= total` it returns at once without
sending anything. -/
theorem transfer_loop_exit (fd : List Nat) (total w : Nat) :
    ∀ fuel (st st' : ClientState) (schedule : List (List DPacket)) (sent : List DPacket),
      (transfer_loop fd total w fuel st schedule = .ok (st', sent) →
        total ≤ st'.base) ∧
      (total ≤ st.base → transfer_loop fd total w fuel st schedule = .ok (st, [])) := by
  intro fuel
  induction fuel with
  | zero =>
    intro st st' schedule sent
    constructor
    · intro h
      simp only [transfer_loop] at h
      split at h
      · simp at h
      · rename_i hge
        simp only [Except.ok.injEq, Prod.mk.injEq] at h
        obtain ⟨h1, -⟩ := h
        rw [← h1]
        omega
    · intro hge
      simp only [transfer_loop]
      rw [if_neg (by omega)]
  | succ fuel ih =>
    intro st st' schedule sent
    constructor
    · intro h
      simp only [transfer_loop] at h
      split at h
      · split at h
        · simp at h
        · split at h
          · simp at h
          · rename_i x1 st2 sent2 heq x2 st3 sent3 heq2
            simp only [Except.ok.injEq, Prod.mk.injEq] at h
            obtain ⟨h1, -⟩ := h
            rw [← h1]
            exact (ih st2 st3 schedule.tail sent3).1 heq2
      · rename_i hge
        simp only [Except.ok.injEq, Prod.mk.injEq] at h
        obtain ⟨h1, -⟩ := h
        rw [← h1]
        omega
    · intro hge
      simp only [transfer_loop]
      rw [if_neg (by omega)]

/-- C1: the claim says the data packet carrying sequence number k contains
exactly the k-th 994-byte chunk and the reassembled bytes equal the payload.
The code violates this: in the only send round of a 995-byte transfer
(`file995`, chunks: 994 bytes of 7, then one byte 9), the one data packet
sent carries sequence 1 but holds chunk 2 (`[9]`), not chunk 1, because
`send_window` increments `next_seq` before slicing; the receiver then
accepts that packet as segment 1 and reassembles `[9]`. -/
theorem claim1_chunk_offset_bug :
    (send_window file995 (total_packets file995) 3 1 1 ∅).2.2 = [⟨1, 0, 0, [9]⟩] ∧
    slice file995 0 MAX_DATA_SIZE = List.replicate 994 7 ∧
    ([9] : List Nat) ≠ List.replicate 994 7 ∧
    run_server_step ⟨[], 1, none⟩ (create_packet 1 0 0 [9]) =
      .ok (⟨[9], 2, none⟩, [create_packet 0 1 ACK_FLAG []], true) :=
  ⟨by decide, by decide, by decide, by decide⟩

/-- C2 counterexample: in the retransmission state `base = 1`,
`next_seq = 3` (the state after the first send round of `file995` with no
ACKs), the claim requires both sequence numbers of `[base, next_seq) =
{1, 2}` to be resent, but `retransmit_packets` iterates
`range(base, next_seq - 1)` and resends only sequence 1. -/
theorem claim2_range_refuted :
    (retransmit_packets file995 1 3).map DPacket.seq = [1] ∧
    2 ∉ (retransmit_packets file995 1 3).map DPacket.seq :=
  ⟨by decide, by decide⟩

/-- C2 (amended): on a retransmission-timeout event every sequence number
in `[base, next_seq - 1)` — the sequence labels actually outstanding — is
resent exactly once, in ascending order, each as a data packet with that
sequence number, payload the seq-th chunk of the file, flags 0 and ack 0. -/
theorem claim2_retransmit_range (fd : List Nat) (b ns s : Nat) (hb : b ≤ s)
    (hs : s < ns - 1) :
    ((retransmit_packets fd b ns).map DPacket.seq).count s = 1 ∧
    ((retransmit_packets fd b ns).map DPacket.seq).Pairwise (· < ·) ∧
    ∀ p ∈ retransmit_packets fd b ns,
      p.ack_num = 0 ∧ p.flags = 0 ∧
      p.data = slice fd ((p.seq - 1) * MAX_DATA_SIZE) (p.seq * MAX_DATA_SIZE) ∧
      b ≤ p.seq ∧ p.seq < ns - 1 := by
  have hmap : (retransmit_packets fd b ns).map DPacket.seq =
      List.range' b (ns - 1 - b) := by
    unfold retransmit_packets
    rw [List.map_map,
      show (DPacket.seq ∘ fun seq =>
        (⟨seq, 0, 0, slice fd ((seq - 1) * MAX_DATA_SIZE) (seq * MAX_DATA_SIZE)⟩ :
          DPacket)) = id from rfl,
      List.map_id]
  refine ⟨?_, ?_, ?_⟩
  · rw [hmap]
    exact List.count_eq_one_of_mem (List.nodup_range' b (ns - 1 - b))
      (List.mem_range'_1.mpr ⟨hb, by omega⟩)
  · rw [hmap]
    exact List.pairwise_lt_range' b (ns - 1 - b)
  · intro p hp
    unfold retransmit_packets at hp
    simp only [List.mem_map] at hp
    obtain ⟨x, hx, rfl⟩ := hp
    rw [List.mem_range'_1] at hx
    refine ⟨rfl, rfl, rfl, hx.1, ?_⟩
    show x < ns - 1
    omega

/-- C2 witness: sequence number 1 is resent exactly once from the
retransmission state `base = 1`, `next_seq = 3`. -/
theorem claim2_witness :
    ((retransmit_packets file995 1 3).map DPacket.seq).count 1 = 1 :=
  (claim2_retransmit_range file995 1 3 1 (le_refl 1) (by decide)).1

/-- C3 counterexample: after the first send round of a 995-byte transfer
with window capacity 1 — a state reachable from the initial window state —
`next_seq = 3` and `base = 1`, so `next_seq - base = 2` exceeds the window
capacity 1, refuting the claimed invariant
`next_seq - base <= window_capacity`. -/
theorem claim3_bound_refuted :
    Reachable file995 (total_packets file995) 1
      ⟨1, (send_window file995 (total_packets file995) 1 1 1 ∅).1,
          (send_window file995 (total_packets file995) 1 1 1 ∅).2.1⟩ ∧
    ¬ ((send_window file995 (total_packets file995) 1 1 1 ∅).1 - 1 ≤ 1) :=
  ⟨Reachable.send Reachable.init, by decide⟩

/-- C3 (amended): in every reachable sender window state with a positive
window size, `base <= next_seq`, `next_seq - base <= window_size + 1`, and
the count of sequence labels actually transmitted but unacknowledged,
`next_seq - 1 - base`, is at most `window_size`. -/
theorem claim3_window_invariant (fd : List Nat) (total w : Nat)
    (st : ClientState) (hw : 1 ≤ w) (h : Reachable fd total w st) :
    st.base ≤ st.next_seq ∧ st.next_seq - st.base ≤ w + 1 ∧
      st.next_seq - 1 - st.base ≤ w := by
  obtain ⟨h1, h2, h3, h4⟩ := reachable_inv fd total w st h
  have h5 := h4 hw
  omega

/-- C3 witness: the initial window state satisfies the amended invariant. -/
theorem claim3_witness :
    (⟨1, 1, ∅⟩ : ClientState).base ≤ (⟨1, 1, ∅⟩ : ClientState).next_seq :=
  (claim3_window_invariant file995 2 3 ⟨1, 1, ∅⟩ (by decide) Reachable.init).1

/-- C4 counterexample: a complete lossless run of the 995-byte transfer
(window 3, one round, the receiver ACK for sequence 1 delivered) exits the
data-transfer loop in state `base = 2 = total_packets`, with sequence 2
still in the in-flight window: the loop exits as soon as
`base >= total_packets`, which does not require the last segment to have
been acknowledged (indeed no ACK for 2 was ever processed). -/
theorem claim4_last_segment_refuted :
    transfer_loop file995 2 3 2 ⟨1, 1, ∅⟩ [[⟨0, 1, 2, []⟩]] =
      .ok (⟨2, 3, {2}⟩, [⟨1, 0, 0, [9]⟩]) ∧
    2 ∈ (⟨2, 3, {2}⟩ : ClientState).window :=
  ⟨by decide, by decide⟩

/-- C4 (amended): the send/wait/retransmit round repeats exactly until
`base >= total_packets` — a normal return implies `total <= base`, and from
`base >= total` the loop returns at once — and on exit every segment `s`
with `s < total_packets` satisfies `s <= base - 1`, i.e. has been covered
by a cumulative acknowledgment; the final segment need not be. -/
theorem claim4_loop_exit (fd : List Nat) (total w fuel : Nat)
    (st st' : ClientState) (schedule : List (List DPacket)) (sent : List DPacket) :
    (transfer_loop fd total w fuel st schedule = .ok (st', sent) →
      total ≤ st'.base ∧ ∀ s, 1 ≤ s → s < total → s ≤ st'.base - 1) ∧
    (total ≤ st.base → transfer_loop fd total w fuel st schedule = .ok (st, [])) := by
  obtain ⟨h1, h2⟩ := transfer_loop_exit fd total w fuel st st' schedule sent
  refine ⟨fun h => ⟨h1 h, fun s hs1 hs2 => ?_⟩, h2⟩
  have := h1 h
  omega

/-- C4 witness: the concrete 995-byte run exits with `base >= total`. -/
theorem claim4_witness :
    (2 : Nat) ≤ (⟨2, 3, {2}⟩ : ClientState).base :=
  ((claim4_loop_exit file995 2 3 2 ⟨1, 1, ∅⟩ ⟨2, 3, {2}⟩ [[⟨0, 1, 2, []⟩]]
      [⟨1, 0, 0, [9]⟩]).1 (by decide)).1

/-- C5 counterexample: with the fault-injection value set to the expected
sequence (`discard_seq = 1 = expected_seq`), a data datagram with sequence 1
is consumed by the discard branch: nothing is appended, no ACK is sent,
`expected_seq` stays 1, and the receiver state changes (`discard_seq` is
cleared) — refuting both directions of the claimed equivalence, which
requires this packet to be accepted and everything else unchanged. -/
theorem claim5_discard_refuted :
    run_server_step ⟨[], 1, some 1⟩ (create_packet 1 0 0 [5]) =
      .ok (⟨[], 1, none⟩, [], true) ∧
    (⟨[], 1, some 1⟩ : ServerState).expected_seq = 1 :=
  ⟨by decide, rfl⟩

/-- C5 (amended): for every data datagram (no SYN, ACK or FIN bit) whose
sequence does not match an active fault-injection discard value, the packet
is accepted — payload appended, an ACK with `ack_number = sequence` and own
sequence field 0 sent, `expected_seq` incremented — exactly when
`sequence = expected_seq`, and any other sequence leaves the receiver state
unchanged and produces no reply. -/
theorem claim5_receiver_ordering (st : ServerState) (seq a flags : Nat)
    (data : List Nat) (hs : seq < 65536) (ha : a < 65536) (hf : flags < 65536)
    (hsyn : flags &&& SYN_FLAG = 0) (hack : flags &&& ACK_FLAG = 0)
    (hfin : flags &&& FIN_FLAG = 0) (hd : st.discard_seq ≠ some seq) :
    run_server_step st (create_packet seq a flags data) =
      .ok (if seq = st.expected_seq
            then ⟨st.file_data ++ data, st.expected_seq + 1, st.discard_seq⟩
            else st,
           if seq = st.expected_seq then [create_packet 0 seq ACK_FLAG []] else [],
           true) := by
  unfold run_server_step
  rw [parse_create seq a flags data hs ha hf]
  simp only [is_flag_set, hsyn, hack, hfin, bne_self_eq_false, Bool.false_eq_true,
    if_false, if_neg hd]
  by_cases he : seq = st.expected_seq
  · rw [if_pos he, if_pos he, if_pos he]
  · rw [if_neg he, if_neg he, if_neg he]

/-- C5 witness: an in-order data datagram with no discard active is
accepted: payload appended, ACK sent, `expected_seq` incremented. -/
theorem claim5_witness :
    run_server_step ⟨[], 1, none⟩ (create_packet 1 0 0 [5]) =
      .ok (⟨[5], 2, none⟩, [create_packet 0 1 ACK_FLAG []], true) :=
  claim5_receiver_ordering ⟨[], 1, none⟩ 1 0 0 [5] (by decide) (by decide)
    (by decide) (by decide) (by decide) (by decide) (by decide)

/-- C6 counterexample: in the reachable sender state `base = 1`,
`next_seq = 3`, window `{1, 2}`, a received datagram with the ACK flag and
`ack_number = 5 >= base` does not slide the window to `base = 6`: the
sliding loop calls `window.remove` on an element that is not present and
raises `KeyError`, so the claimed universal slide behaviour fails for ACK
numbers at or beyond `next_seq`. -/
theorem claim6_overrange_refuted :
    on_ack file995 2 3 ⟨1, 3, Finset.Ico 1 3⟩ ⟨0, 5, 2, []⟩ =
      .error "KeyError" := by decide

/-- C6 (amended): whenever the sender receives a packet with the ACK flag
set and `base <= ack_number < next_seq` (every acknowledgment actually
named after a transmitted label satisfies this), the window slides: the
handler returns the state with `base = ack_number + 1`, every sequence from
the old base through `ack_number` has left the window, and a `send_window`
round is attempted immediately from the slid state; a received ACK with
`ack_number < base` leaves the state unchanged and sends nothing. -/
theorem claim6_cumulative_ack (fd : List Nat) (total w : Nat)
    (st : ClientState) (p q : DPacket) :
    (is_flag_set p.flags ACK_FLAG = true → st.base ≤ p.ack_num →
      p.ack_num < st.next_seq → st.window = Finset.Ico st.base st.next_seq →
      on_ack fd total w st p =
        .ok (⟨p.ack_num + 1,
              (send_window fd total w (p.ack_num + 1) st.next_seq
                (Finset.Ico (p.ack_num + 1) st.next_seq)).1,
              (send_window fd total w (p.ack_num + 1) st.next_seq
                (Finset.Ico (p.ack_num + 1) st.next_seq)).2.1⟩,
             (send_window fd total w (p.ack_num + 1) st.next_seq
                (Finset.Ico (p.ack_num + 1) st.next_seq)).2.2) ∧
      ∀ s, st.base ≤ s → s ≤ p.ack_num →
        s ∉ (send_window fd total w (p.ack_num + 1) st.next_seq
              (Finset.Ico (p.ack_num + 1) st.next_seq)).2.1) ∧
    (q.ack_num < st.base → on_ack fd total w st q = .ok (st, [])) := by
  constructor
  · intro hflag hba hlt hwin
    constructor
    · unfold on_ack
      rw [if_pos ⟨hflag, hba⟩, hwin,
        slide_window_ok st.base p.ack_num st.next_seq hba hlt]
    · intro s hs1 hs2
      obtain ⟨hsa, hsb, hsc⟩ := send_window_spec fd total w (p.ack_num + 1)
        st.next_seq (by omega) (by omega)
      rw [hsb, Finset.mem_Ico]
      omega
  · intro hq
    unfold on_ack
    rw [if_neg (fun hc => absurd hc.2 (by omega))]

/-- C6 witness: in the state `base = 1`, `next_seq = 3`, window `Ico 1 3`,
an ACK for sequence 1 slides the window to `base = 2` and triggers an
immediate send round, while an ACK for 0 (below base) changes nothing. -/
theorem claim6_witness :
    on_ack file995 2 3 ⟨1, 3, Finset.Ico 1 3⟩ ⟨0, 1, 2, []⟩ =
      .ok (⟨2, (send_window file995 2 3 2 3 (Finset.Ico 2 3)).1,
            (send_window file995 2 3 2 3 (Finset.Ico 2 3)).2.1⟩,
           (send_window file995 2 3 2 3 (Finset.Ico 2 3)).2.2) ∧
    on_ack file995 2 3 ⟨1, 3, Finset.Ico 1 3⟩ ⟨0, 0, 2, []⟩ =
      .ok (⟨1, 3, Finset.Ico 1 3⟩, []) :=
  ⟨((claim6_cumulative_ack file995 2 3 ⟨1, 3, Finset.Ico 1 3⟩ ⟨0, 1, 2, []⟩
        ⟨0, 0, 2, []⟩).1 (by decide) (by decide) (by decide) rfl).1,
   (claim6_cumulative_ack file995 2 3 ⟨1, 3, Finset.Ico 1 3⟩ ⟨0, 1, 2, []⟩
        ⟨0, 0, 2, []⟩).2 (by decide)⟩

/-- C7: decoding an encoded packet is the identity for all 16-bit header
fields and payloads of at most `MAX_DATA_SIZE` bytes. -/
theorem claim7_codec_roundtrip (s a f : Nat) (data : List Nat) (hs : s ≤ 65535)
    (ha : a ≤ 65535) (hf : f ≤ 65535) (_hlen : data.length ≤ MAX_DATA_SIZE) :
    parse_packet (create_packet s a f data) = .ok (s, a, f, data) :=
  parse_create s a f data (by omega) (by omega) (by omega)

/-- C7 witness: a concrete round trip through the codec. -/
theorem claim7_witness :
    parse_packet (create_packet 65535 0 7 [1, 2, 3]) = .ok (65535, 0, 7, [1, 2, 3]) :=
  claim7_codec_roundtrip 65535 0 7 [1, 2, 3] (by decide) (by decide) (by decide)
    (by decide)

/-- C8: decoding a buffer of fewer than 6 bytes does fail (`struct.error`),
but the engine does not discard the datagram and continue: the receive loop
only catches `socket.timeout`, so the error escapes and the loop terminates
— here the server dies on the 3-byte datagram and never processes the valid
data packet that follows it. -/
theorem claim8_malformed_crash_bug :
    parse_packet [1, 2, 3] = .error "struct.error" ∧
    run_server_loop ⟨[], 1, none⟩
      [some [1, 2, 3], some (create_packet 1 0 0 [5])] =
      .error "struct.error" :=
  ⟨by decide, by decide⟩

/-- C9: when the whole payload fits in one segment (`length <= 994`, so
`total_packets <= 1`), the guard `base < total_packets` of the data-transfer
loop is false at entry: the loop body never runs, no data packet is sent,
and the sender falls through to teardown with its window state untouched. -/
theorem claim9_no_data_rounds (fd : List Nat) (w fuel : Nat)
    (schedule : List (List DPacket)) (h : fd.length ≤ MAX_DATA_SIZE) :
    transfer_loop fd (total_packets fd) w fuel ⟨1, 1, ∅⟩ schedule =
      .ok (⟨1, 1, ∅⟩, []) := by
  have ht : total_packets fd ≤ 1 := by
    unfold total_packets
    unfold MAX_DATA_SIZE at h ⊢
    omega
  have hb : ¬ ((⟨1, 1, ∅⟩ : ClientState).base < total_packets fd) := by
    show ¬ (1 < total_packets fd)
    omega
  cases fuel with
  | zero =>
    simp only [transfer_loop]
    rw [if_neg hb]
  | succ fuel =>
    simp only [transfer_loop]
    rw [if_neg hb]

/-- C9 witness: a 3-byte payload produces zero data-transfer rounds. -/
theorem claim9_witness :
    transfer_loop [1, 2, 3] (total_packets [1, 2, 3]) 3 0 ⟨1, 1, ∅⟩ [] =
      .ok (⟨1, 1, ∅⟩, []) :=
  claim9_no_data_rounds [1, 2, 3] 3 0 [] (by decide)

/-- C10: `is_flag_set` is true exactly when the bitwise AND is nonzero;
consequently the combined-mask tests `SYN|ACK` and `FIN|ACK` used by the
client succeed as soon as either of the two flags is set — in particular a
packet carrying only `ACK` passes the `SYN|ACK` test. -/
theorem claim10_flag_test (flags mask : Nat) :
    (is_flag_set flags mask = true ↔ flags &&& mask ≠ 0) ∧
    (is_flag_set flags SYN_FLAG = true ∨ is_flag_set flags ACK_FLAG = true →
      is_flag_set flags (SYN_FLAG ||| ACK_FLAG) = true) ∧
    (is_flag_set flags FIN_FLAG = true ∨ is_flag_set flags ACK_FLAG = true →
      is_flag_set flags (FIN_FLAG ||| ACK_FLAG) = true) ∧
    is_flag_set ACK_FLAG (SYN_FLAG ||| ACK_FLAG) = true := by
  have hchar : ∀ x y : Nat, is_flag_set x y = true ↔ x &&& y ≠ 0 := by
    intro x y
    simp [is_flag_set]
  refine ⟨hchar flags mask, ?_, ?_, by decide⟩
  · intro h
    rw [hchar]
    intro h0
    rcases h with h | h <;> rw [hchar] at h
    · exact h (land_sub_zero
        (show (SYN_FLAG ||| ACK_FLAG) &&& SYN_FLAG = SYN_FLAG by decide) h0)
    · exact h (land_sub_zero
        (show (SYN_FLAG ||| ACK_FLAG) &&& ACK_FLAG = ACK_FLAG by decide) h0)
  · intro h
    rw [hchar]
    intro h0
    rcases h with h | h <;> rw [hchar] at h
    · exact h (land_sub_zero
        (show (FIN_FLAG ||| ACK_FLAG) &&& FIN_FLAG = FIN_FLAG by decide) h0)
    · exact h (land_sub_zero
        (show (FIN_FLAG ||| ACK_FLAG) &&& ACK_FLAG = ACK_FLAG by decide) h0)

/-- C10 witness: a packet carrying only the ACK flag satisfies the
client handshake test against the combined `SYN|ACK` mask. -/
theorem claim10_witness : is_flag_set 2 (SYN_FLAG ||| ACK_FLAG) = true :=
  (claim10_flag_test 2 0).2.1 (Or.inr (by decide))

end DRTP
